import Mathlib

/-!
Verification of chainer-chemistry's `Classifier` wrapper
(`chainer_chemistry/models/prediction/classifier.py`) and of the
`CSVFileParser` whose observable behaviour is fixed by the spec and by
`tests/dataset_tests/parsers_tests/test_csv_file_parser.py`.

The Python code is shallowly embedded: stateful methods become pure
functions returning explicit result states, Python exceptions become an
error type, NumPy arrays become Lean lists, and the external libraries
(RDKit molecule parsing, the preprocessor's featurisation, the predictor
network and the loss/metric callables) become function parameters.
-/

namespace ChainerChem

/-! ### Python list indexing and slicing

`args[i]`, `args[:k]` and `args[k:]` with Python's negative-index
semantics, used by `Classifier.__call__`. -/

/-- Python index normalisation: a negative index counts from the end. -/
def pyIndex (n : Nat) (i : Int) : Int :=
  if i < 0 then i + n else i

/-- `xs[i]` with Python semantics: `some` value when the (normalised)
index is in bounds, `none` when Python would raise `IndexError`. -/
def pyGet (xs : List α) (i : Int) : Option α :=
  if h : 0 ≤ pyIndex xs.length i ∧ (pyIndex xs.length i).toNat < xs.length then
    some (xs.get ⟨(pyIndex xs.length i).toNat, h.2⟩)
  else none

/-- `xs[:stop]` with Python slice semantics (negative `stop` counts from
the end; out-of-range values are clamped). -/
def pySliceTo (xs : List α) (stop : Int) : List α :=
  xs.take (if stop < 0 then (stop + xs.length).toNat else stop.toNat)

/-- `xs[start:]` with Python slice semantics. -/
def pySliceFrom (xs : List α) (start : Int) : List α :=
  xs.drop (if start < 0 then (start + xs.length).toNat else start.toNat)

/-! ### Classifier: constructor (`Classifier.__init__`) -/

/-- The dynamic type of the `label_key` argument: an `int`, a `str`, or a
value of any other Python type (identified by its type name). -/
inductive LabelKey
  | int (i : Int)
  | str (s : String)
  | other (tyName : String)
deriving DecidableEq, Repr

/-- `isinstance(label_key, (int, str))`. -/
def LabelKey.isIntOrStr : LabelKey → Bool
  | .int _ => true
  | .str _ => true
  | .other _ => false

/-- The dynamic type of the `metrics_fun` (or `accfun`) argument:
`None`, a callable, a dict mapping metric names to callables, or a value
of any other Python type. Metric callables take the prediction and the
label and are abstracted as functions `V → V → V`. -/
inductive MetricsArg (V : Type)
  | none
  | callable (f : V → V → V)
  | dict (d : List (String × (V → V → V)))
  | other (tyName : String)

/-- `isinstance(metrics_fun, Callable)`, `isinstance(metrics_fun, dict)`
or `None`: everything except `other`. -/
def MetricsArg.isValid : MetricsArg V → Bool
  | .other _ => false
  | _ => true

/-- Python exceptions raised by the embedded methods. -/
inductive PyError
  | typeError (msg : String)
  | valueError (msg : String)
deriving DecidableEq, Repr

/-- `e` is a `TypeError`. -/
def PyError.isTypeError : PyError → Bool
  | .typeError _ => true
  | .valueError _ => false

/-- The state a successfully constructed `Classifier` holds: the fields
assigned by `__init__` that `__call__` reads. The predictor takes the
remaining positional and keyword arguments and returns a prediction. -/
structure ClassifierState (V : Type) where
  predictor : List V → List (String × V) → V
  lossfun : V → V → V
  compute_metrics : Bool
  metrics_fun : Option (List (String × (V → V → V)))
  label_key : LabelKey

/-- `Classifier.__init__`: validates `label_key` first, lets a non-`None`
`accfun` override `metrics_fun`, then normalises `metrics_fun`
(`None` disables metrics; a callable is wrapped as `{'accuracy': f}`;
a dict is stored as-is; anything else raises `TypeError`). The class
attribute `compute_metrics = True` is the default; the `None` branch
shadows it with `False`. GPU transfer (`device >= 0`) is outside the
model. -/
def Classifier.init (predictor : List V → List (String × V) → V)
    (lossfun : V → V → V) (accfun : Option (MetricsArg V))
    (metrics_fun : MetricsArg V) (label_key : LabelKey) :
    Except PyError (ClassifierState V) :=
  if ¬ label_key.isIntOrStr then
    .error (.typeError "label_key must be int or str")
  else
    -- accfun, when not None, overrides metrics_fun before normalisation
    let mf := accfun.getD metrics_fun
    match mf with
    | .none =>
        .ok { predictor, lossfun, compute_metrics := false,
              metrics_fun := Option.none, label_key }
    | .callable f =>
        .ok { predictor, lossfun, compute_metrics := true,
              metrics_fun := some [("accuracy", f)], label_key }
    | .dict d =>
        .ok { predictor, lossfun, compute_metrics := true,
              metrics_fun := some d, label_key }
    | .other _ =>
        .error (.typeError "Unexpected type metrics_fun must be None or Callable or dict")

/-! ### Classifier: forward call (`Classifier.__call__`) -/

/-- The mutable attributes `__call__` writes: `self.y`, `self.loss` and
`self.metrics` (each `None` until set). -/
structure CallState (V : Type) where
  y : Option V
  loss : Option V
  metrics : Option (List (String × V))

/-- Removal of the label element from the positional arguments:
`args[:-1]` when `label_key == -1`, otherwise
`args[:label_key] + args[label_key+1:]`. -/
def removeLabelArg (args : List V) (k : Int) : List V :=
  if k = -1 then pySliceTo args (-1)
  else pySliceTo args k ++ pySliceFrom args (k + 1)

/-- `Classifier.__call__`: extracts the ground-truth label `t` from the
arguments according to `label_key` (raising `ValueError` on an
out-of-bounds int key or a missing str key, before touching any
attribute), then resets `y`, `loss`, `metrics`, runs the predictor on
the remaining arguments, computes the loss, and computes the metrics
dict when `compute_metrics` is set. Returns the attribute state after
the call together with the raised error or the returned loss.
(`reporter.report` is a logging side effect outside the model; a state
with `compute_metrics` true and `metrics_fun` `None` is not reachable
from the constructor, and the model reads an empty metric dict there.) -/
def Classifier.call (st : ClassifierState V) (prior : CallState V)
    (args : List V) (kwargs : List (String × V)) :
    CallState V × Except PyError V :=
  match st.label_key with
  | .int k =>
    match pyGet args k with
    | Option.none => (prior, .error (.valueError "Label key is out of bounds"))
    | some t =>
      let args' := removeLabelArg args k
      let y := st.predictor args' kwargs
      let l := st.lossfun y t
      let metrics :=
        if st.compute_metrics then
          some ((st.metrics_fun.getD []).map (fun p => (p.1, p.2 y t)))
        else Option.none
      ({ y := some y, loss := some l, metrics }, .ok l)
  | .str s =>
    match kwargs.lookup s with
    | Option.none => (prior, .error (.valueError "Label key is not found"))
    | some t =>
      let kwargs' := kwargs.filter (fun p => p.1 ≠ s)
      let y := st.predictor args kwargs'
      let l := st.lossfun y t
      let metrics :=
        if st.compute_metrics then
          some ((st.metrics_fun.getD []).map (fun p => (p.1, p.2 y t)))
        else Option.none
      ({ y := some y, loss := some l, metrics }, .ok l)
  | .other _ => (prior, .error (.typeError "Label key type not supported"))

/-! ### Classifier: batched inference (`Classifier._forward`, `predict`,
`predict_proba`)

`_forward` iterates a `SerialIterator(data, batch_size, repeat=False,
shuffle=False)`, runs `converter`, optional `preprocess_fn`, `fn` and
optional `postprocess_fn` on each batch, gathers each output stream, and
finally concatenates every stream. The converter, preprocessing and the
main function are fused into one `step : List δ → List (List β)` taking
a batch to its tuple of output arrays (`_to_tuple` already applied);
an output array is a `List β`. -/

/-- The batches a `SerialIterator` with `repeat=False, shuffle=False`
yields: consecutive chunks of `batchsize` elements in input order, the
last chunk possibly shorter. (A zero batch size never terminates in
Python and is mapped to no batches.) -/
def serialBatches (batchsize : Nat) : List δ → List (List δ)
  | [] => []
  | x :: xs =>
    if batchsize = 0 then []
    else (x :: xs).take batchsize ::
      serialBatches batchsize ((x :: xs).drop batchsize)
termination_by xs => xs.length
decreasing_by
  simp only [List.length_drop, List.length_cons]
  omega

/-- One batch's `for j, output in enumerate(outputs):
output_list[j].append(...)`: appends the `j`-th output array to the
`j`-th stream. Streams beyond `outs.length` are left untouched; an
output tuple longer than the stream list raises `IndexError` (`none`). -/
def updateOutputs (acc : List (List (List β))) (outs : List (List β)) :
    Option (List (List (List β))) :=
  if outs.length ≤ acc.length then
    some (List.zipWith (fun a o => a ++ [o]) acc outs ++ acc.drop outs.length)
  else Option.none

/-- A batch's output tuple after the optional `postprocess_fn`. -/
def effStep (step : List δ → List (List β))
    (post : Option (List (List β) → List (List β))) (b : List δ) :
    List (List β) :=
  match post with
  | some p => p (step b)
  | Option.none => step b

/-- The loop body of `_forward` over the batches: `acc` is
`output_list`, which starts as `None` and is initialised to
`len(outputs)` empty streams on the first batch, before `postprocess_fn`
is applied. The outer `Option` is an uncaught `IndexError`. -/
def forwardLoop (step : List δ → List (List β))
    (post : Option (List (List β) → List (List β))) :
    List (List δ) → Option (List (List (List β))) →
    Option (Option (List (List (List β))))
  | [], acc => some acc
  | b :: bs, acc =>
    let acc0 := match acc with
      | Option.none => List.replicate (step b).length []
      | some a => a
    match updateOutputs acc0 (effStep step post b) with
    | Option.none => Option.none
    | some a => forwardLoop step post bs (some a)

/-- `_forward`'s return value: the single concatenated array when there
is one output stream, the list of concatenated arrays otherwise. -/
inductive ForwardResult (β : Type)
  | single (a : List β)
  | multi (as : List (List β))
deriving DecidableEq, Repr

/-- `result[0] if len(result) == 1 else result`. -/
def mkForwardResult : List (List β) → ForwardResult β
  | [r] => .single r
  | rs => .multi rs

/-- `Classifier._forward` (with `retain_inputs=False`): iterate the
serial batches once, collect the output streams, concatenate each.
`none` models the uncaught Python error on an empty iteration
(`output_list` still `None`) or a growing output arity (`IndexError`). -/
def Classifier.forward (step : List δ → List (List β))
    (post : Option (List (List β) → List (List β)))
    (batchsize : Nat) (data : List δ) : Option (ForwardResult β) :=
  match forwardLoop step post (serialBatches batchsize data) Option.none with
  | Option.none => Option.none
  | some Option.none => Option.none
  | some (some ol) => some (mkForwardResult (ol.map List.flatten))

/-- `Classifier.predict_proba`: delegates to `_forward` with
`fn=self.predictor` and a softmax default `postprocess_fn`, inside a
no-backprop test-mode scope (a no-op in the pure model). -/
def Classifier.predict_proba (step : List δ → List (List β))
    (post : List (List β) → List (List β)) (batchsize : Nat)
    (data : List δ) : Option (ForwardResult β) :=
  Classifier.forward step (some post) batchsize data

/-- `Classifier.predict`: delegates to `_forward` with
`fn=self.predictor` and an argmax default `postprocess_fn`, inside a
no-backprop test-mode scope (a no-op in the pure model). -/
def Classifier.predict (step : List δ → List (List β))
    (post : List (List β) → List (List β)) (batchsize : Nat)
    (data : List δ) : Option (ForwardResult β) :=
  Classifier.forward step (some post) batchsize data

/-! ### CSVFileParser

The implementation (`chainer_chemistry/dataset/parsers/csv_file_parser.py`)
is not part of the sources; only its tests are. It is modelled from the
spec below. -/

/-- One CSV row: the value of the configured SMILES column and the value
of the (optional) label column. Feature arrays and label values share
the value type `α`. -/
structure CSVRow (α : Type) where
  smiles : String
  label : α
deriving DecidableEq, Repr

/-- Modelled from the spec: the parser's configuration — the external
molecule parser behind the configured SMILES column (RDKit
`MolFromSmiles`, `none` on an invalid SMILES), the preprocessor's
`get_input_features` (a tuple of feature arrays for a molecule), and
whether a labels column is configured. -/
structure ParserConfig (Mol α : Type) where
  parseMol : String → Option Mol
  getInputFeatures : Mol → List α
  hasLabels : Bool

/-- Modelled from the spec: the dict returned by `CSVFileParser.parse`,
always carrying the keys `dataset`, `smiles` and `is_successful`; the
latter two are `None` unless requested. An example in `dataset` is the
tuple of input-feature arrays, followed by the row's label value when a
labels column is configured. -/
structure ParseResult (α : Type) where
  dataset : List (List α)
  smiles : Option (List String)
  is_successful : Option (List Bool)

/-- Modelled from the spec: row selection by `target_index` — parsing is
restricted to the rows at the given indices; without a `target_index`
every row of the file is processed. -/
def selectRows (rows : List (CSVRow α)) : Option (List Nat) → List (CSVRow α)
  | Option.none => rows
  | some idxs => idxs.filterMap (fun i => rows[i]?)

/-- Modelled from the spec: whether the row's molecule parses. -/
def rowSuccessful (cfg : ParserConfig Mol α) (r : CSVRow α) : Bool :=
  (cfg.parseMol r.smiles).isSome

/-- Modelled from the spec: featurisation of one row — the example tuple
when the molecule parses (input-feature arrays, then the label value
when a labels column is configured), `none` when it does not. -/
def parseRow (cfg : ParserConfig Mol α) (r : CSVRow α) : Option (List α) :=
  (cfg.parseMol r.smiles).map (fun m =>
    let feats := cfg.getInputFeatures m
    if cfg.hasLabels then feats ++ [r.label] else feats)

/-- Modelled from the spec: `CSVFileParser.parse`. Each selected row is
featurised independently; a molecule-parse failure is recorded as a
`False` success flag instead of aborting the batch, and only the
successful rows contribute an example to `dataset` (and their SMILES to
`smiles`, kept in row order). `smiles` and `is_successful` are `None`
unless `return_smiles` / `return_is_successful` is set. -/
def CSVFileParser.parse (cfg : ParserConfig Mol α) (rows : List (CSVRow α))
    (return_smiles return_is_successful : Bool)
    (target_index : Option (List Nat) := Option.none) : ParseResult α :=
  let sel := selectRows rows target_index
  { dataset := sel.filterMap (parseRow cfg),
    smiles :=
      if return_smiles then
        some ((sel.filter (rowSuccessful cfg)).map (·.smiles))
      else Option.none,
    is_successful :=
      if return_is_successful then some (sel.map (rowSuccessful cfg))
      else Option.none }

/-! ### Helper lemmas -/

/-- `args[i]` is `none` exactly when the bound check
`-len(args) <= i < len(args)` of `Classifier.__call__` fails. -/
lemma pyGet_eq_none_iff (xs : List α) (i : Int) :
    pyGet xs i = Option.none ↔ ¬(-(xs.length : Int) ≤ i ∧ i < xs.length) := by
  unfold pyGet
  split
  · rename_i h
    simp only [reduceCtorEq, false_iff, not_not]
    unfold pyIndex at h
    by_cases hi : i < 0
    · rw [if_pos hi] at h
      omega
    · rw [if_neg hi] at h
      omega
  · rename_i h
    simp only [true_iff]
    intro hc
    apply h
    unfold pyIndex
    by_cases hi : i < 0
    · rw [if_pos hi]
      omega
    · rw [if_neg hi]
      omega

lemma pyGet_isSome_iff (xs : List α) (i : Int) :
    (pyGet xs i).isSome = true ↔ (-(xs.length : Int) ≤ i ∧ i < xs.length) := by
  rw [Option.isSome_iff_ne_none, Ne, pyGet_eq_none_iff, not_not]

/-- A `filterMap` whose function succeeds on every element reads like a
`map`: the `i`-th output is the image of the `i`-th input. -/
lemma filterMap_getElem?_of_all_some {f : α → Option β} :
    ∀ (l : List α), (∀ x ∈ l, (f x).isSome = true) →
    ∀ i : Nat, (l.filterMap f)[i]? = l[i]?.bind f := by
  intro l
  induction l with
  | nil => intro _ i; simp
  | cons x xs ih =>
    intro hall i
    obtain ⟨b, hb⟩ := Option.isSome_iff_exists.mp (hall x (by simp))
    have hxs : ∀ y ∈ xs, (f y).isSome = true := fun y hy => hall y (by simp [hy])
    cases i with
    | zero => simp [List.filterMap_cons, hb]
    | succ n => simp [List.filterMap_cons, hb, ih hxs n]

lemma filterMap_length_of_all_some {f : α → Option β} :
    ∀ (l : List α), (∀ x ∈ l, (f x).isSome = true) →
    (l.filterMap f).length = l.length := by
  intro l
  induction l with
  | nil => intro _; simp
  | cons x xs ih =>
    intro hall
    obtain ⟨b, hb⟩ := Option.isSome_iff_exists.mp (hall x (by simp))
    have hxs : ∀ y ∈ xs, (f y).isSome = true := fun y hy => hall y (by simp [hy])
    simp [List.filterMap_cons, hb, ih hxs]

/-- `parseRow` succeeds exactly on the rows whose molecule parses, so the
dataset has one example per successful row. -/
lemma parseRow_isSome (cfg : ParserConfig Mol α) (r : CSVRow α) :
    (parseRow cfg r).isSome = rowSuccessful cfg r := by
  unfold parseRow rowSuccessful
  cases cfg.parseMol r.smiles <;> simp

lemma filterMap_parseRow_eq_filter (cfg : ParserConfig Mol α) :
    ∀ rows : List (CSVRow α),
    rows.filterMap (parseRow cfg) =
      (rows.filter (rowSuccessful cfg)).filterMap (parseRow cfg) := by
  intro rows
  induction rows with
  | nil => simp
  | cons r rs ih =>
    by_cases h : rowSuccessful cfg r = true
    · simp [List.filterMap_cons, List.filter_cons, h, ih]
    · have hnone : parseRow cfg r = Option.none := by
        have hs := parseRow_isSome cfg r
        rw [Bool.not_eq_true] at h
        rw [h] at hs
        exact Option.not_isSome_iff_eq_none.mp (by simp [hs])
      simp [List.filterMap_cons, List.filter_cons, h, hnone, ih]

lemma filterMap_parseRow_length (cfg : ParserConfig Mol α) :
    ∀ rows : List (CSVRow α),
    (rows.filterMap (parseRow cfg)).length =
      (rows.filter (rowSuccessful cfg)).length := by
  intro rows
  rw [filterMap_parseRow_eq_filter]
  apply filterMap_length_of_all_some
  intro r hr
  rw [parseRow_isSome]
  exact (List.mem_filter.mp hr).2

/-! ### Claims about `Classifier.__init__` -/

/-- **C4.** Once the `metrics_fun` argument (after a non-`None` `accfun`
override) is of a valid type, the constructor raises `TypeError` exactly
when `label_key` is neither an `int` nor a `str`; every raised error is
a `TypeError`, and on success the `label_key` is stored unchanged in
`self.label_key`. -/
theorem C4_init_typeError_iff_bad_label_key
    (p : List V → List (String × V) → V) (l : V → V → V)
    (accfun : Option (MetricsArg V)) (mfa : MetricsArg V) (lk : LabelKey)
    (hmf : (accfun.getD mfa).isValid = true) :
    ((∃ e, Classifier.init p l accfun mfa lk = .error e) ↔
      lk.isIntOrStr = false) ∧
    (∀ e, Classifier.init p l accfun mfa lk = .error e →
      e.isTypeError = true) ∧
    (∀ st, Classifier.init p l accfun mfa lk = .ok st →
      st.label_key = lk) := by
  rcases lk with i | s | ty <;>
    rcases hm : accfun.getD mfa with _ | f | d | t <;>
    simp_all [Classifier.init, LabelKey.isIntOrStr, MetricsArg.isValid,
      PyError.isTypeError]

/-- **C4 witness.** -/
theorem C4_init_typeError_iff_bad_label_key_witness :
    ((∃ e, Classifier.init (V := Nat) (fun _ _ => 0) (fun _ _ => 0)
        Option.none (MetricsArg.dict []) (.other "list") = .error e) ↔
      (LabelKey.other "list").isIntOrStr = false) ∧
    (∀ e, Classifier.init (V := Nat) (fun _ _ => 0) (fun _ _ => 0)
        Option.none (MetricsArg.dict []) (.other "list") = .error e →
      e.isTypeError = true) ∧
    (∀ st, Classifier.init (V := Nat) (fun _ _ => 0) (fun _ _ => 0)
        Option.none (MetricsArg.dict []) (.other "list") = .ok st →
      st.label_key = .other "list") :=
  C4_init_typeError_iff_bad_label_key _ _ _ _ _ rfl

/-- **C9.** The constructor's normalisation of `metrics_fun`: `None`
disables metrics computation, a callable is wrapped into
`{'accuracy': metrics_fun}`, a dict is stored as-is, any other type
raises `TypeError`, and a non-`None` `accfun` overrides `metrics_fun`
before the normalisation. -/
theorem C9_init_metrics_normalisation
    (p : List V → List (String × V) → V) (l : V → V → V)
    (mfa : MetricsArg V) (lk : LabelKey) (hlk : lk.isIntOrStr = true) :
    (mfa = MetricsArg.none →
      Classifier.init p l Option.none mfa lk =
        .ok { predictor := p, lossfun := l, compute_metrics := false,
              metrics_fun := Option.none, label_key := lk }) ∧
    (∀ f, mfa = MetricsArg.callable f →
      Classifier.init p l Option.none mfa lk =
        .ok { predictor := p, lossfun := l, compute_metrics := true,
              metrics_fun := some [("accuracy", f)], label_key := lk }) ∧
    (∀ d, mfa = MetricsArg.dict d →
      Classifier.init p l Option.none mfa lk =
        .ok { predictor := p, lossfun := l, compute_metrics := true,
              metrics_fun := some d, label_key := lk }) ∧
    (∀ ty, mfa = MetricsArg.other ty →
      ∃ msg, Classifier.init p l Option.none mfa lk =
        .error (.typeError msg)) ∧
    (∀ a, Classifier.init p l (some a) mfa lk =
      Classifier.init p l Option.none a lk) := by
  refine ⟨?_, ?_, ?_, ?_, ?_⟩
  · rintro rfl
    simp [Classifier.init, hlk]
  · rintro f rfl
    simp [Classifier.init, hlk]
  · rintro d rfl
    simp [Classifier.init, hlk]
  · rintro ty rfl
    exact ⟨"Unexpected type metrics_fun must be None or Callable or dict",
      by simp [Classifier.init, hlk]⟩
  · intro a
    rfl

/-- **C9 witness.** -/
theorem C9_init_metrics_normalisation_witness :
    ((MetricsArg.callable (fun a b => a + b) : MetricsArg Nat) =
        MetricsArg.none →
      Classifier.init (fun _ _ => 0) (fun _ _ => 0) Option.none
          (MetricsArg.callable (fun a b => a + b)) (.int 0) =
        .ok { predictor := fun _ _ => 0, lossfun := fun _ _ => 0,
              compute_metrics := false, metrics_fun := Option.none,
              label_key := .int 0 }) ∧
    (∀ f, (MetricsArg.callable (fun a b => a + b) : MetricsArg Nat) =
        MetricsArg.callable f →
      Classifier.init (fun _ _ => 0) (fun _ _ => 0) Option.none
          (MetricsArg.callable (fun a b => a + b)) (.int 0) =
        .ok { predictor := fun _ _ => 0, lossfun := fun _ _ => 0,
              compute_metrics := true,
              metrics_fun := some [("accuracy", f)], label_key := .int 0 }) ∧
    (∀ d, (MetricsArg.callable (fun a b => a + b) : MetricsArg Nat) =
        MetricsArg.dict d →
      Classifier.init (fun _ _ => 0) (fun _ _ => 0) Option.none
          (MetricsArg.callable (fun a b => a + b)) (.int 0) =
        .ok { predictor := fun _ _ => 0, lossfun := fun _ _ => 0,
              compute_metrics := true, metrics_fun := some d,
              label_key := .int 0 }) ∧
    (∀ ty, (MetricsArg.callable (fun a b => a + b) : MetricsArg Nat) =
        MetricsArg.other ty →
      ∃ msg, Classifier.init (fun _ _ => 0) (fun _ _ => 0) Option.none
          (MetricsArg.callable (fun a b => a + b)) (.int 0) =
        .error (.typeError msg)) ∧
    (∀ a, Classifier.init (V := Nat) (fun _ _ => 0) (fun _ _ => 0) (some a)
        (MetricsArg.callable (fun a b => a + b)) (.int 0) =
      Classifier.init (fun _ _ => 0) (fun _ _ => 0) Option.none a (.int 0)) :=
  C9_init_metrics_normalisation _ _ _ _ rfl

/-! ### Claims about `Classifier.__call__` -/

/-- **C8.** `__call__` raises `ValueError` and leaves `self.y`,
`self.loss` and `self.metrics` at their prior values whenever an `int`
`label_key` fails the bound check `-len(args) <= label_key < len(args)`
or a `str` `label_key` is absent from the keyword arguments: the label
extraction happens before the attributes are reset. -/
theorem C8_call_invalid_label_key_valueError (st : ClassifierState V)
    (prior : CallState V) (args : List V) (kwargs : List (String × V)) :
    (∀ k, st.label_key = .int k →
      ¬(-(args.length : Int) ≤ k ∧ k < args.length) →
      Classifier.call st prior args kwargs =
        (prior, .error (.valueError "Label key is out of bounds"))) ∧
    (∀ s, st.label_key = .str s → kwargs.lookup s = Option.none →
      Classifier.call st prior args kwargs =
        (prior, .error (.valueError "Label key is not found"))) := by
  constructor
  · intro k hk hb
    have hnone : pyGet args k = Option.none := (pyGet_eq_none_iff args k).mpr hb
    simp [Classifier.call, hk, hnone]
  · intro s hs hn
    simp [Classifier.call, hs, hn]

/-- A concrete predictor for evaluating the model: sums the positional
arguments and the keyword-argument values. -/
def demoPredictor : List Nat → List (String × Nat) → Nat :=
  fun args kwargs => args.sum + (kwargs.map (·.2)).sum

/-- A concrete classifier state over `Nat` values. -/
def demoState (lk : LabelKey) (cm : Bool) : ClassifierState Nat :=
  { predictor := demoPredictor,
    lossfun := fun y t => y * 100 + t,
    compute_metrics := cm,
    metrics_fun := some [("accuracy", fun y t => y + t)],
    label_key := lk }

/-- A concrete prior attribute state. -/
def demoPrior : CallState Nat :=
  { y := some 1, loss := some 2, metrics := some [("accuracy", 3)] }

/-- **C8 witness.** -/
theorem C8_call_invalid_label_key_valueError_witness :
    Classifier.call (demoState (.int 5) true) demoPrior [10, 20] [("w", 7)] =
      (demoPrior, .error (.valueError "Label key is out of bounds")) ∧
    Classifier.call (demoState (.str "t") true) demoPrior [10, 20] [("w", 7)] =
      (demoPrior, .error (.valueError "Label key is not found")) :=
  ⟨(C8_call_invalid_label_key_valueError _ _ _ _).1 5 rfl (by decide),
   (C8_call_invalid_label_key_valueError _ _ _ _).2 "t" rfl (by decide)⟩

/-- Removing the label element from `args` by Python slices is exactly
deleting the element at the (normalised) label index, so the predictor
receives all remaining positional arguments in order. -/
lemma removeLabelArg_eq_eraseIdx (args : List V) (k : Int)
    (h1 : -(args.length : Int) ≤ k) (h2 : k < args.length) :
    removeLabelArg args k = args.eraseIdx (pyIndex args.length k).toNat := by
  rw [List.eraseIdx_eq_take_drop_succ]
  unfold removeLabelArg pySliceTo pySliceFrom pyIndex
  by_cases hk1 : k = -1
  · subst hk1
    rw [if_pos rfl, if_pos (by omega : (-1 : Int) < 0),
      if_pos (by omega : (-1 : Int) < 0)]
    have hdrop : ((-1 + (args.length : Int)).toNat + 1) = args.length := by
      omega
    rw [hdrop, List.drop_length, List.append_nil]
  · rw [if_neg hk1]
    by_cases hk0 : k < 0
    · rw [if_pos hk0, if_pos hk0, if_pos (by omega : k + 1 < 0)]
      have hidx : (k + 1 + (args.length : Int)).toNat =
          (k + (args.length : Int)).toNat + 1 := by
        omega
      rw [hidx]
    · rw [if_neg hk0, if_neg hk0, if_neg (by omega : ¬(k + 1 < 0))]
      have hidx : (k + 1).toNat = k.toNat + 1 := by
        omega
      rw [hidx]

/-- **C5.** On a valid label key (`int` in bounds or `str` present),
`__call__` extracts the label, feeds all remaining arguments to the
predictor, stores the prediction in `self.y` and
`lossfun(prediction, label)` in `self.loss`, returns that loss, and when
`compute_metrics` is set stores `{key: fn(self.y, label)}` for every
entry of `metrics_fun` in `self.metrics` (otherwise `self.metrics` stays
`None`). The second conjunct identifies the predictor's arguments as
`args` with the label element deleted. -/
theorem C5_call_computes_loss_and_metrics (st : ClassifierState V)
    (prior : CallState V) (args : List V) (kwargs : List (String × V)) :
    (∀ k t, st.label_key = .int k → pyGet args k = some t →
      Classifier.call st prior args kwargs =
        ({ y := some (st.predictor (removeLabelArg args k) kwargs),
           loss := some (st.lossfun
             (st.predictor (removeLabelArg args k) kwargs) t),
           metrics :=
             if st.compute_metrics then
               some ((st.metrics_fun.getD []).map (fun p =>
                 (p.1, p.2 (st.predictor (removeLabelArg args k) kwargs) t)))
             else Option.none },
         .ok (st.lossfun (st.predictor (removeLabelArg args k) kwargs) t))) ∧
    (∀ k, -(args.length : Int) ≤ k → k < args.length →
      removeLabelArg args k = args.eraseIdx (pyIndex args.length k).toNat) ∧
    (∀ s t, st.label_key = .str s → kwargs.lookup s = some t →
      Classifier.call st prior args kwargs =
        ({ y := some (st.predictor args (kwargs.filter (fun p => p.1 ≠ s))),
           loss := some (st.lossfun
             (st.predictor args (kwargs.filter (fun p => p.1 ≠ s))) t),
           metrics :=
             if st.compute_metrics then
               some ((st.metrics_fun.getD []).map (fun p =>
                 (p.1, p.2 (st.predictor args
                   (kwargs.filter (fun q => q.1 ≠ s))) t)))
             else Option.none },
         .ok (st.lossfun
           (st.predictor args (kwargs.filter (fun p => p.1 ≠ s))) t))) := by
  refine ⟨?_, ?_, ?_⟩
  · intro k t hk hget
    simp [Classifier.call, hk, hget]
  · intro k h1 h2
    exact removeLabelArg_eq_eraseIdx args k h1 h2
  · intro s t hs hget
    simp [Classifier.call, hs, hget]

/-- **C5 witness.** -/
theorem C5_call_computes_loss_and_metrics_witness :
    (Classifier.call (demoState (.int (-1)) true) demoPrior [3, 5] [] =
      ({ y := some 3, loss := some 305, metrics := some [("accuracy", 8)] },
       .ok 305)) ∧
    removeLabelArg (V := Nat) [3, 5] (-1) = [3, 5].eraseIdx 1 ∧
    (Classifier.call (demoState (.str "t") true) demoPrior [3] [("t", 9)] =
      ({ y := some 3, loss := some 309, metrics := some [("accuracy", 12)] },
       .ok 309)) := by
  refine ⟨?_, ?_, ?_⟩
  · have h := (C5_call_computes_loss_and_metrics
      (demoState (.int (-1)) true) demoPrior [3, 5] []).1 (-1) 5 rfl (by decide)
    rw [h]
    rfl
  · exact (C5_call_computes_loss_and_metrics
      (demoState (.int (-1)) true) demoPrior [3, 5] []).2.1 (-1)
        (by decide) (by decide)
  · have h := (C5_call_computes_loss_and_metrics
      (demoState (.str "t") true) demoPrior [3] [("t", 9)]).2.2 "t" 9 rfl
        (by decide)
    rw [h]
    rfl

/-! ### Claims about `CSVFileParser.parse` -/

/-- **C1.** With `return_is_successful=True`, the parse records one
boolean per row — `true` exactly when the row's molecule parses — keeps
exactly the successfully parsed rows in `dataset` (one example per
successful row), and never aborts: the flag list covers every row,
failing ones included. -/
theorem C1_parse_flags_failures_without_aborting
    (cfg : ParserConfig Mol α) (rows : List (CSVRow α))
    (return_smiles : Bool) :
    ((CSVFileParser.parse cfg rows return_smiles true).is_successful =
      some (rows.map (rowSuccessful cfg))) ∧
    (rows.map (rowSuccessful cfg)).length = rows.length ∧
    (∀ i : Nat, ((rows.map (rowSuccessful cfg))[i]? = some true ↔
      ∃ r, rows[i]? = some r ∧ ∃ m, cfg.parseMol r.smiles = some m)) ∧
    ((CSVFileParser.parse cfg rows return_smiles true).dataset =
      (rows.filter (rowSuccessful cfg)).filterMap (parseRow cfg)) ∧
    (CSVFileParser.parse cfg rows return_smiles true).dataset.length =
      (rows.filter (rowSuccessful cfg)).length := by
  refine ⟨?_, ?_, ?_, ?_, ?_⟩
  · simp [CSVFileParser.parse, selectRows]
  · simp
  · intro i
    constructor
    · intro h
      rw [List.getElem?_map] at h
      rcases hr : rows[i]? with _ | r
      · rw [hr] at h
        cases h
      · rw [hr] at h
        simp at h
        refine ⟨r, rfl, ?_⟩
        unfold rowSuccessful at h
        exact Option.isSome_iff_exists.mp h
    · rintro ⟨r, hr, m, hm⟩
      rw [List.getElem?_map, hr]
      simp [rowSuccessful, hm]
  · simp [CSVFileParser.parse, selectRows, filterMap_parseRow_eq_filter]
  · simp only [CSVFileParser.parse, selectRows]
    exact filterMap_parseRow_length cfg rows

/-- **C2.** On a CSV whose rows all carry valid SMILES (no labels column
configured), the dataset has exactly one feature tuple per row, and the
`i`-th example is exactly `get_input_features` applied to the molecule
parsed from the `i`-th row's SMILES. -/
theorem C2_parse_valid_rows_match_preprocessor
    (cfg : ParserConfig Mol α) (rows : List (CSVRow α))
    (return_smiles return_is_successful : Bool)
    (hnl : cfg.hasLabels = false)
    (hall : ∀ r ∈ rows, (cfg.parseMol r.smiles).isSome = true) :
    (CSVFileParser.parse cfg rows return_smiles
      return_is_successful).dataset.length = rows.length ∧
    (∀ i : Nat, ∀ r, rows[i]? = some r →
      ∃ m, cfg.parseMol r.smiles = some m ∧
        (CSVFileParser.parse cfg rows return_smiles
          return_is_successful).dataset[i]? =
          some (cfg.getInputFeatures m)) := by
  have hsome : ∀ r ∈ rows, (parseRow cfg r).isSome = true := by
    intro r hr
    rw [parseRow_isSome]
    exact hall r hr
  constructor
  · simp only [CSVFileParser.parse, selectRows]
    exact filterMap_length_of_all_some rows hsome
  · intro i r hr
    have hmem : r ∈ rows := by
      have hlt : i < rows.length := by
        by_contra hge
        rw [List.getElem?_eq_none (by omega)] at hr
        cases hr
      rw [List.getElem?_eq_getElem hlt, Option.some.injEq] at hr
      rw [← hr]
      exact List.getElem_mem hlt
    obtain ⟨m, hm⟩ := Option.isSome_iff_exists.mp (hall r hmem)
    refine ⟨m, hm, ?_⟩
    simp only [CSVFileParser.parse, selectRows]
    rw [filterMap_getElem?_of_all_some rows hsome i, hr]
    simp [parseRow, hm, hnl]

/-- **C3.** With a `target_index` of in-bounds row indices, only the
rows at those indices are processed — the `j`-th selected row is the row
at the `j`-th index, and `dataset` holds examples exactly for the
selected rows that parse — while `is_successful` always has one entry
per selected index, not per file row. -/
theorem C3_parse_target_index_subset
    (cfg : ParserConfig Mol α) (rows : List (CSVRow α))
    (idxs : List Nat) (return_smiles : Bool)
    (hidx : ∀ i ∈ idxs, i < rows.length) :
    (selectRows rows (some idxs)).length = idxs.length ∧
    (∀ j : Nat, (selectRows rows (some idxs))[j]? =
      idxs[j]?.bind (fun i => rows[i]?)) ∧
    ((CSVFileParser.parse cfg rows return_smiles true
        (some idxs)).is_successful =
      some ((selectRows rows (some idxs)).map (rowSuccessful cfg))) ∧
    (∀ l, (CSVFileParser.parse cfg rows return_smiles true
        (some idxs)).is_successful = some l → l.length = idxs.length) ∧
    ((CSVFileParser.parse cfg rows return_smiles true
        (some idxs)).dataset =
      ((selectRows rows (some idxs)).filter
        (rowSuccessful cfg)).filterMap (parseRow cfg)) := by
  have hsome : ∀ i ∈ idxs, (rows[i]?).isSome = true := by
    intro i hi
    rw [List.getElem?_eq_getElem (hidx i hi)]
    rfl
  have hsel : ∀ j : Nat, (selectRows rows (some idxs))[j]? =
      idxs[j]?.bind (fun i => rows[i]?) := by
    intro j
    simp only [selectRows]
    exact filterMap_getElem?_of_all_some (f := fun i => rows[i]?) idxs
      hsome j
  have hlen : (selectRows rows (some idxs)).length = idxs.length := by
    simp only [selectRows]
    exact filterMap_length_of_all_some (f := fun i => rows[i]?) idxs hsome
  refine ⟨hlen, hsel, ?_, ?_, ?_⟩
  · simp [CSVFileParser.parse]
  · intro l hl
    have hflag : (CSVFileParser.parse cfg rows return_smiles true
        (some idxs)).is_successful =
        some ((selectRows rows (some idxs)).map (rowSuccessful cfg)) := by
      simp [CSVFileParser.parse]
    rw [hflag, Option.some.injEq] at hl
    rw [← hl, List.length_map, hlen]
  · simp [CSVFileParser.parse, filterMap_parseRow_eq_filter]

/-- **C6.** With a labels column configured, every example in `dataset`
is the row's input-feature arrays followed by the row's label value as
final element; with `return_smiles=True` the returned SMILES list has
exactly one entry per example, namely the SMILES of the successfully
parsed rows in row order. -/
theorem C6_parse_labels_and_smiles
    (cfg : ParserConfig Mol α) (rows : List (CSVRow α))
    (return_is_successful : Bool) (hl : cfg.hasLabels = true) :
    (∀ ex ∈ (CSVFileParser.parse cfg rows true
        return_is_successful).dataset,
      ∃ r, r ∈ rows ∧ ∃ m, cfg.parseMol r.smiles = some m ∧
        ex = cfg.getInputFeatures m ++ [r.label]) ∧
    ((CSVFileParser.parse cfg rows true return_is_successful).smiles =
      some ((rows.filter (rowSuccessful cfg)).map (fun r => r.smiles))) ∧
    (∀ l, (CSVFileParser.parse cfg rows true
        return_is_successful).smiles = some l →
      l.length = (CSVFileParser.parse cfg rows true
        return_is_successful).dataset.length) := by
  refine ⟨?_, ?_, ?_⟩
  · intro ex hex
    simp only [CSVFileParser.parse, selectRows, List.mem_filterMap] at hex
    obtain ⟨r, hr, hpr⟩ := hex
    unfold parseRow at hpr
    rcases hm : cfg.parseMol r.smiles with _ | m
    · rw [hm] at hpr
      cases hpr
    · rw [hm] at hpr
      simp [hl] at hpr
      exact ⟨r, hr, m, hm, hpr.symm⟩
  · simp [CSVFileParser.parse, selectRows]
  · intro l hlid
    have hsm : (CSVFileParser.parse cfg rows true
        return_is_successful).smiles =
        some ((rows.filter (rowSuccessful cfg)).map
          (fun r => r.smiles)) := by
      simp [CSVFileParser.parse, selectRows]
    rw [hsm, Option.some.injEq] at hlid
    rw [← hlid, List.length_map]
    exact (filterMap_parseRow_length cfg rows).symm

/-- **C10.** The parse result always carries all three of `dataset`,
`smiles` and `is_successful` (they are fields of the result record);
`smiles` is `None` when `return_smiles=False`, `is_successful` is `None`
when `return_is_successful=False`, and `dataset` is populated the same
way regardless of the two flags. -/
theorem C10_parse_result_keys
    (cfg : ParserConfig Mol α) (rows : List (CSVRow α))
    (ti : Option (List Nat)) :
    ((CSVFileParser.parse cfg rows false false ti).smiles =
      Option.none) ∧
    ((CSVFileParser.parse cfg rows false false ti).is_successful =
      Option.none) ∧
    (∀ rs rsf : Bool, (CSVFileParser.parse cfg rows rs rsf ti).dataset =
      (CSVFileParser.parse cfg rows true true ti).dataset) := by
  refine ⟨rfl, rfl, ?_⟩
  intro rs rsf
  rfl

/-- The three valid SMILES used by the parser tests. -/
def demoValidSmiles : List String :=
  ["CN=C=O", "Cc1ccccc1", "CC1=CC2CC(CC1)O2"]

/-- A concrete parser configuration for evaluating the model: molecules
are represented by their SMILES text, the three test SMILES parse and
everything else fails, and featurisation returns a single array holding
the string length. -/
def demoParserConfig (hasLabels : Bool) : ParserConfig String Int :=
  { parseMol := fun s => if s ∈ demoValidSmiles then some s else Option.none,
    getInputFeatures := fun m => [(m.length : Int)],
    hasLabels := hasLabels }

/-- The three valid rows of the test CSV (labels scaled to integers). -/
def demoRows : List (CSVRow Int) :=
  [⟨"CN=C=O", 21⟩, ⟨"Cc1ccccc1", 53⟩, ⟨"CC1=CC2CC(CC1)O2", -12⟩]

/-- The five rows of the test CSV with invalid SMILES at indices 0
and 2. -/
def demoRowsInvalid : List (CSVRow Int) :=
  [⟨"var", 0⟩, ⟨"CN=C=O", 21⟩, ⟨"hoge", 0⟩, ⟨"Cc1ccccc1", 53⟩,
   ⟨"CC1=CC2CC(CC1)O2", -12⟩]

/-- **C2 witness.** -/
theorem C2_parse_valid_rows_match_preprocessor_witness :
    (CSVFileParser.parse (demoParserConfig false) demoRows false
      false).dataset.length = demoRows.length ∧
    (∀ i : Nat, ∀ r, demoRows[i]? = some r →
      ∃ m, (demoParserConfig false).parseMol r.smiles = some m ∧
        (CSVFileParser.parse (demoParserConfig false) demoRows false
          false).dataset[i]? =
          some ((demoParserConfig false).getInputFeatures m)) :=
  C2_parse_valid_rows_match_preprocessor (demoParserConfig false) demoRows
    false false rfl (by decide)

/-- **C3 witness.** -/
theorem C3_parse_target_index_subset_witness :
    (selectRows demoRowsInvalid (some [1, 2, 4])).length = [1, 2, 4].length ∧
    (∀ j : Nat, (selectRows demoRowsInvalid (some [1, 2, 4]))[j]? =
      [1, 2, 4][j]?.bind (fun i => demoRowsInvalid[i]?)) ∧
    ((CSVFileParser.parse (demoParserConfig true) demoRowsInvalid true true
        (some [1, 2, 4])).is_successful =
      some ((selectRows demoRowsInvalid (some [1, 2, 4])).map
        (rowSuccessful (demoParserConfig true)))) ∧
    (∀ l, (CSVFileParser.parse (demoParserConfig true) demoRowsInvalid true
        true (some [1, 2, 4])).is_successful = some l →
      l.length = [1, 2, 4].length) ∧
    ((CSVFileParser.parse (demoParserConfig true) demoRowsInvalid true true
        (some [1, 2, 4])).dataset =
      ((selectRows demoRowsInvalid (some [1, 2, 4])).filter
        (rowSuccessful (demoParserConfig true))).filterMap
          (parseRow (demoParserConfig true))) :=
  C3_parse_target_index_subset (demoParserConfig true) demoRowsInvalid
    [1, 2, 4] true (by decide)

/-- **C6 witness.** -/
theorem C6_parse_labels_and_smiles_witness :
    (∀ ex ∈ (CSVFileParser.parse (demoParserConfig true) demoRowsInvalid
        true true).dataset,
      ∃ r, r ∈ demoRowsInvalid ∧
        ∃ m, (demoParserConfig true).parseMol r.smiles = some m ∧
          ex = (demoParserConfig true).getInputFeatures m ++ [r.label]) ∧
    ((CSVFileParser.parse (demoParserConfig true) demoRowsInvalid true
        true).smiles =
      some ((demoRowsInvalid.filter
        (rowSuccessful (demoParserConfig true))).map (fun r => r.smiles))) ∧
    (∀ l, (CSVFileParser.parse (demoParserConfig true) demoRowsInvalid true
        true).smiles = some l →
      l.length = (CSVFileParser.parse (demoParserConfig true)
        demoRowsInvalid true true).dataset.length) :=
  C6_parse_labels_and_smiles (demoParserConfig true) demoRowsInvalid true rfl

/-! ### Claims about `Classifier._forward` -/

/-- The serial iteration visits each data element exactly once, in input
order: the batches concatenate back to the data. -/
lemma serialBatches_flatten (bs : Nat) (hbs : 0 < bs) :
    ∀ xs : List δ, (serialBatches bs xs).flatten = xs
  | [] => by simp [serialBatches]
  | x :: t => by
    have hne : bs ≠ 0 := Nat.pos_iff_ne_zero.mp hbs
    simp only [serialBatches, if_neg hne, List.flatten_cons]
    rw [serialBatches_flatten bs hbs ((x :: t).drop bs)]
    exact List.take_append_drop bs (x :: t)
termination_by xs => xs.length
decreasing_by
  simp only [List.length_drop, List.length_cons]
  omega

/-- Loop invariant of `_forward`: once `output_list` holds `k` streams,
processing the remaining batches appends, per stream, one output array
per batch, in batch order. -/
lemma forwardLoop_spec (step : List δ → List (List β))
    (post : Option (List (List β) → List (List β))) (k : Nat)
    (heff : ∀ b, (effStep step post b).length = k) :
    ∀ (batches : List (List δ)) (acc : List (List (List β))),
      acc.length = k →
      forwardLoop step post batches (some acc) =
        some (some ((List.range k).map (fun j =>
          acc.getD j [] ++
            batches.map (fun b => (effStep step post b).getD j [])))) := by
  intro batches
  induction batches with
  | nil =>
    intro acc hacc
    simp only [forwardLoop, List.map_nil, List.append_nil]
    refine congrArg some (congrArg some ?_)
    apply List.ext_getElem (by simp [hacc])
    intro j hj1 hj2
    simp only [List.getElem_map, List.getElem_range]
    rw [List.getD_eq_getElem acc [] hj1]
  | cons b bs ih =>
    intro acc hacc
    have hlen : (effStep step post b).length = k := heff b
    have hud : updateOutputs acc (effStep step post b) =
        some (List.zipWith (fun a o => a ++ [o]) acc
          (effStep step post b)) := by
      unfold updateOutputs
      have hcond : (effStep step post b).length ≤ acc.length := by
        rw [hlen, hacc]
      rw [if_pos hcond, hlen, ← hacc, List.drop_length, List.append_nil]
    have hacc' : (List.zipWith (fun a o => a ++ [o]) acc
        (effStep step post b)).length = k := by
      simp [hacc, hlen]
    simp only [forwardLoop, hud]
    rw [ih _ hacc']
    refine congrArg some (congrArg some ?_)
    apply List.map_congr_left
    intro j hj
    rw [List.mem_range] at hj
    have hj1 : j < acc.length := by omega
    have hj2 : j < (effStep step post b).length := by omega
    have hjz : j < (List.zipWith (fun a o => a ++ [o]) acc
        (effStep step post b)).length := by
      rw [hacc']
      omega
    simp only [List.map_cons]
    rw [List.getD_eq_getElem _ [] hjz, List.getD_eq_getElem _ [] hj1,
      List.getD_eq_getElem _ [] hj2, List.getElem_zipWith]
    simp [List.append_assoc]

/-- Starting from an uninitialised `output_list`, the loop produces one
stream per output of the first batch, each stream holding one array per
batch in batch order. -/
lemma forwardLoop_none_spec (step : List δ → List (List β))
    (post : Option (List (List β) → List (List β))) (k : Nat)
    (hstep : ∀ b, (step b).length = k)
    (heff : ∀ b, (effStep step post b).length = k)
    (b : List δ) (bs : List (List δ)) :
    forwardLoop step post (b :: bs) Option.none =
      some (some ((List.range k).map (fun j =>
        (b :: bs).map (fun b' => (effStep step post b').getD j [])))) := by
  have hlen : (effStep step post b).length = k := heff b
  have hzip : List.zipWith (fun (a : List (List β)) o => a ++ [o])
      (List.replicate k []) (effStep step post b) =
      (effStep step post b).map (fun o => [o]) := by
    apply List.ext_getElem (by simp [hlen])
    intro j hj1 hj2
    simp only [List.getElem_zipWith, List.getElem_replicate,
      List.getElem_map, List.nil_append]
  have hud : updateOutputs (List.replicate (step b).length [])
      (effStep step post b) =
      some ((effStep step post b).map (fun o => [o])) := by
    unfold updateOutputs
    rw [hstep b, hlen]
    have hdrop : (List.replicate k ([] : List (List β))).drop k = [] := by
      simp
    rw [if_pos (by simp), hdrop, List.append_nil, hzip]
  simp only [forwardLoop, hud]
  rw [forwardLoop_spec step post k heff bs _ (by simp [hlen])]
  refine congrArg some (congrArg some ?_)
  apply List.map_congr_left
  intro j hj
  rw [List.mem_range] at hj
  have hj2 : j < (effStep step post b).length := by omega
  have hjm : j < ((effStep step post b).map
      (fun o => ([o] : List (List β)))).length := by
    simp
    omega
  simp only [List.map_cons]
  rw [List.getD_eq_getElem _ [] hjm, List.getElem_map,
    List.getD_eq_getElem _ [] hj2]
  rfl

/-- **C7.** `_forward` (and hence `predict` and `predict_proba`, which
delegate to it) drives a single synchronous `SerialIterator` pass with
`shuffle=False, repeat=False`: the batches partition the data in input
order, each batch is visited exactly once, and the returned value is the
in-order concatenation of the per-batch outputs — returned directly when
there is one output stream (`mkForwardResult` of a singleton) and as a
list of streams otherwise. -/
theorem C7_forward_single_pass_in_order_concat
    (step : List δ → List (List β))
    (post : Option (List (List β) → List (List β)))
    (batchsize : Nat) (data : List δ) (k : Nat)
    (hbs : 0 < batchsize) (hdata : data ≠ [])
    (hstep : ∀ b, (step b).length = k)
    (heff : ∀ b, (effStep step post b).length = k) :
    (serialBatches batchsize data).flatten = data ∧
    Classifier.forward step post batchsize data =
      some (mkForwardResult ((List.range k).map (fun j =>
        ((serialBatches batchsize data).map
          (fun b => (effStep step post b).getD j [])).flatten))) ∧
    (∀ p, Classifier.predict step p batchsize data =
      Classifier.forward step (some p) batchsize data) ∧
    (∀ p, Classifier.predict_proba step p batchsize data =
      Classifier.forward step (some p) batchsize data) := by
  have hflat := serialBatches_flatten batchsize hbs data
  refine ⟨hflat, ?_, fun p => rfl, fun p => rfl⟩
  obtain ⟨hd, tl, hbatches⟩ : ∃ hd tl,
      serialBatches batchsize data = hd :: tl := by
    cases hyp : serialBatches batchsize data with
    | nil =>
      rw [hyp] at hflat
      simp only [List.flatten_nil] at hflat
      exact absurd hflat.symm hdata
    | cons hd tl => exact ⟨hd, tl, rfl⟩
  have hfwd : Classifier.forward step post batchsize data =
      some (mkForwardResult (((List.range k).map (fun j =>
        (hd :: tl).map (fun b' => (effStep step post b').getD j []))).map
          List.flatten)) := by
    unfold Classifier.forward
    rw [hbatches, forwardLoop_none_spec step post k hstep heff hd tl]
  rw [hfwd, hbatches]
  refine congrArg some (congrArg mkForwardResult ?_)
  rw [List.map_map]
  rfl

/-- **C7 witness.** -/
theorem C7_forward_single_pass_in_order_concat_witness :
    (serialBatches 2 [1, 2, 3, 4, 5]).flatten = [1, 2, 3, 4, 5] ∧
    Classifier.forward (fun b : List Nat => [[b.sum], [b.length]])
        Option.none 2 [1, 2, 3, 4, 5] =
      some (mkForwardResult ((List.range 2).map (fun j =>
        ((serialBatches 2 [1, 2, 3, 4, 5]).map (fun b =>
          (effStep (fun b : List Nat => [[b.sum], [b.length]])
            Option.none b).getD j [])).flatten))) ∧
    (∀ p, Classifier.predict
        (fun b : List Nat => [[b.sum], [b.length]]) p 2 [1, 2, 3, 4, 5] =
      Classifier.forward (fun b : List Nat => [[b.sum], [b.length]])
        (some p) 2 [1, 2, 3, 4, 5]) ∧
    (∀ p, Classifier.predict_proba
        (fun b : List Nat => [[b.sum], [b.length]]) p 2 [1, 2, 3, 4, 5] =
      Classifier.forward (fun b : List Nat => [[b.sum], [b.length]])
        (some p) 2 [1, 2, 3, 4, 5]) :=
  C7_forward_single_pass_in_order_concat
    (fun b : List Nat => [[b.sum], [b.length]]) Option.none 2
    [1, 2, 3, 4, 5] 2 (by decide) (by decide) (fun b => rfl) (fun b => rfl)

end ChainerChem
